import Mathlib

/-!
Verification of the oracle context-coordination core.

This file gives a shallow embedding, in Lean, of the parts of the
repository that the specification's testable properties talk about:

* `oracle/context/daemon.py` — `OracleDaemon.send_message`,
  `get_messages_for`, `mark_read`, `_load_messages`, `get_status`;
* `oracle/context/session_spawner.py` — `HANDOFF_RULES` (fallback table)
  and `SessionSpawner.send_handoff`;
* `oracle/context/context_manager.py` — `FileActivityTracker`
  (`record_activity`, `get_active_context`) and `ContextFileHandler`;
* `oracle/seeg.py` — `HealthMonitorEventHandler._should_process`
  (the 1-second per-path debounce);
* `oracle/daemon/oracle_daemon.py` — `OracleDaemonService.start`
  (PID-lock handling).

Modelling conventions: Python dicts that are used in insertion order are
association lists `List (key × value)`; `datetime` timestamps are integer
seconds (`Int`) — ISO-8601 strings produced by `datetime.isoformat` compare
lexicographically in chronological order, so message creation times are
modelled as `Nat`; fallible operations (a `KeyError`, an uncaught
`json.JSONDecodeError`) return `Option`/`Except`.  Python's `list.sort` /
`sorted` (stable Timsort) is modelled by a stable insertion sort.
-/

/-! ### Generic helpers -/

/-- Assignment `d[k] = v` on a Python dict kept as an association list:
an existing key keeps its position (Python dicts preserve insertion
order and an assignment to a present key does not move it); a new key is
appended at the end. -/
def dictSet {α : Type} (l : List (String × α)) (k : String) (v : α) :
    List (String × α) :=
  if l.any (fun p => p.1 == k) then
    l.map (fun p => if p.1 == k then (k, v) else p)
  else l ++ [(k, v)]

/-- Check that the first character list starts the second (used to model
Python's substring test `pattern in path`). -/
def startsSeg : List Char → List Char → Bool
  | [], _ => true
  | _ :: _, [] => false
  | p :: ps, c :: cs => p == c && startsSeg ps cs

/-- Check that the first character list occurs contiguously inside the
second: Python's `pattern in path` on strings. -/
def hasSeg (pat : List Char) : List Char → Bool
  | [] => startsSeg pat []
  | c :: cs => startsSeg pat (c :: cs) || hasSeg pat cs

/-! ### Mailbox — `oracle/context/daemon.py`

`OracleDaemon` keeps its message log in `data/.oracle_messages.json`, a
JSON array rewritten in full on every mutation.  A message is the dict
built in `send_message`. -/

/-- Message record as built by `OracleDaemon.send_message`:
`{"id": len+1, "from": …, "to": …, "content": …, "type": …,
"priority": …, "created_at": now.isoformat(), "read_at": None}`. -/
structure Message where
  id : Nat
  fromCtx : String
  toCtx : String
  content : String
  msgType : String
  priority : String
  createdAt : Nat
  readAt : Option Nat
  deriving DecidableEq, Repr

/-- Registered context ids.  `ALL_CONTEXTS` in `daemon.py` is loaded from
`context_registry.json`; with no registry file present the code falls
back to this list. -/
def ALL_CONTEXTS : List String := ["oracle", "dev", "dash", "crank", "pocket"]

/-- Handoff-rule table in the internal format of `session_spawner.py`:
`from_context → sends_to: to_context → allowed message types`.  Both
dict levels are association lists. -/
def HandoffRules : Type := List (String × List (String × List String))

/-- Python `HANDOFF_RULES.get(from_ctx, {}).get("sends_to", {})`: the
`sends_to` table of a source context, empty when the context has no
entry. -/
def sendsTo (rules : HandoffRules) (from_ctx : String) :
    List (String × List String) :=
  ((rules.find? (fun p => p.1 == from_ctx)).map Prod.snd).getD []

/-- Key set of the `sends_to` dict: the targets a context may address. -/
def sendTargets (rules : HandoffRules) (from_ctx : String) : List String :=
  (sendsTo rules from_ctx).map Prod.fst

/-- Python `rules.get("sends_to", {}).get(to_context, [])`: the message
types allowed from one context to another. -/
def allowedTypes (rules : HandoffRules) (from_ctx to_ctx : String) :
    List String :=
  (((sendsTo rules from_ctx).find? (fun p => p.1 == to_ctx)).map Prod.snd).getD []

/-- Fallback handoff-rule table hard-coded in `session_spawner.py`
(`_get_handoff_rules`), used when the registry defines no rules. -/
def HANDOFF_RULES : HandoffRules :=
  [ ("dash",
      [ ("dev", ["custom_preset_request", "api_change_request", "backend_bug"]),
        ("crank", ["content_generation_request"]) ]),
    ("crank",
      [ ("dev", ["bug_report"]),
        ("dash", ["content_ready"]) ]),
    ("dev",
      [ ("dash", ["new_feature_available", "preset_added", "api_updated"]),
        ("crank", ["preset_fixed", "new_preset"]) ]),
    ("oracle",
      [ ("dev", ["health_alert", "task_assignment"]),
        ("dash", ["health_alert", "task_assignment"]),
        ("crank", ["health_alert", "task_assignment"]),
        ("pocket", ["sync_request"]) ]),
    ("pocket",
      [ ("oracle", ["sync_complete", "fallback_active"]) ]) ]

/-- Result of `OracleDaemon.send_message`.  The source returns
`{"success": False, "error": "Invalid context…"}`,
`{"success": False, "error": "X cannot send to Y…"}` or
`{"success": True, "message": msg}`; the two error strings are
abstracted into the two failure constructors.  Each constructor carries
the persisted log after the call. -/
inductive SendResult where
  | ok (msg : Message) (log : List Message)
  | invalidContext (log : List Message)
  | notAllowed (log : List Message)
  deriving DecidableEq, Repr

/-- Log on disk after a `send_message` call. -/
def SendResult.log : SendResult → List Message
  | .ok _ log => log
  | .invalidContext log => log
  | .notAllowed log => log

/-- Success flag of the returned dict. -/
def SendResult.success : SendResult → Bool
  | .ok _ _ => true
  | _ => false

/-- `OracleDaemon.send_message(from_ctx, to_ctx, content, msg_type,
priority)`.  Mirrors `daemon.py` lines 195–240: reject when either
context is unregistered; when `from_ctx != "oracle"`, reject when
`to_ctx` is neither a key of `HANDOFF_RULES[from_ctx]["sends_to"]` nor
`"oracle"`; otherwise append a message with id `len(messages) + 1`.
Note the rule check consults only the target key set — the message type
is never examined. -/
def send_message (all_contexts : List String) (rules : HandoffRules)
    (log : List Message) (from_ctx to_ctx content msg_type priority : String)
    (now : Nat) : SendResult :=
  if from_ctx ∉ all_contexts ∨ to_ctx ∉ all_contexts then
    .invalidContext log
  else if from_ctx ≠ "oracle" ∧ to_ctx ∉ sendTargets rules from_ctx ∧
      to_ctx ≠ "oracle" then
    .notAllowed log
  else
    let msg : Message :=
      { id := log.length + 1, fromCtx := from_ctx, toCtx := to_ctx,
        content := content, msgType := msg_type, priority := priority,
        createdAt := now, readAt := none }
    .ok msg (log ++ [msg])

/-- Database message row as built by `SessionSpawner.send_handoff`
(`app.models.Message`); the autoincrement primary key is modelled as
`length + 1`. -/
structure DbMessage where
  id : Nat
  from_context : String
  to_context : String
  message_type : String
  subject : String
  content : String
  priority : String
  read_at : Option Nat
  deriving DecidableEq, Repr

/-- `SessionSpawner.send_handoff` (`session_spawner.py` lines 490–537):
reject (return `None`) when `message_type` is not in
`HANDOFF_RULES[from_context]["sends_to"][to_context]` — there is no
exemption for any context, the coordinator included; reject when no
database session is configured; otherwise insert and return the new
row. -/
def send_handoff (rules : HandoffRules) (db : Option (List DbMessage))
    (from_context to_context message_type content priority : String) :
    Option (DbMessage × List DbMessage) :=
  if message_type ∉ allowedTypes rules from_context to_context then none
  else
    match db with
    | none => none
    | some msgs =>
      let msg : DbMessage :=
        { id := msgs.length + 1, from_context := from_context,
          to_context := to_context, message_type := message_type,
          subject := "[" ++ message_type ++ "] from " ++ from_context,
          content := content, priority := priority, read_at := none }
      some (msg, msgs ++ [msg])

/-- Priority ranking used by `get_messages_for`:
`{"urgent": 0, "high": 1, "normal": 2, "low": 3}.get(priority, 2)`. -/
def priorityRank (p : String) : Nat :=
  if p = "urgent" then 0
  else if p = "high" then 1
  else if p = "normal" then 2
  else if p = "low" then 3
  else 2

/-- Strict comparison on the Python sort key
`(priority_rank, created_at)`; `sorted` orders by `<` on this tuple. -/
def msgKeyLt (a b : Message) : Bool :=
  decide (priorityRank a.priority < priorityRank b.priority) ||
    (decide (priorityRank a.priority = priorityRank b.priority) &&
      decide (a.createdAt < b.createdAt))

/-- Stable insert for the ascending key order: the new element goes
after every element with a strictly smaller key and before the first
element whose key is not smaller, as Python's stable sort does. -/
def insertAsc (m : Message) : List Message → List Message
  | [] => [m]
  | q :: qs => if msgKeyLt q m then q :: insertAsc m qs else m :: q :: qs

/-- Stable ascending sort by `(priority_rank, created_at)`, modelling
`sorted(filtered, key=lambda x: (rank, x["created_at"]))`. -/
def sortMessages : List Message → List Message
  | [] => []
  | m :: ms => insertAsc m (sortMessages ms)

/-- Filter of `OracleDaemon.get_messages_for`: addressed to the context
or to `"all"`, and unread when `unread_only` is set. -/
def inboxPred (context : String) (unread_only : Bool) (m : Message) : Bool :=
  (m.toCtx == context || m.toCtx == "all") && (!unread_only || m.readAt.isNone)

/-- `OracleDaemon.get_messages_for(context, unread_only)` (`daemon.py`
lines 252–263).  The context name is not validated against the
registry. -/
def get_messages_for (log : List Message) (context : String)
    (unread_only : Bool) : List Message :=
  sortMessages (log.filter (inboxPred context unread_only))

/-- `OracleDaemon.mark_read(message_id)` (`daemon.py` lines 265–272):
set `read_at` to the current time on the first message whose id matches
(the loop breaks after the first hit), whether or not it was already
read; save the log unchanged when no id matches. -/
def mark_read (log : List Message) (message_id : Nat) (now : Nat) :
    List Message :=
  match log with
  | [] => []
  | m :: rest =>
    if m.id = message_id then { m with readAt := some now } :: rest
    else m :: mark_read rest message_id now

/-! ### Persistence fallbacks — `_load_messages` and `get_status`

Both readers test `file.exists()` and, when the file exists, call
`json.loads` with no exception handler.  The three possible on-disk
situations are: no file, a file that parses to a value, and a file whose
content fails to parse. -/

/-- On-disk situation of a JSON state file. -/
inductive FileContent (α : Type) where
  | absent
  | corrupt
  | parsed (v : α)
  deriving DecidableEq, Repr

/-- `OracleDaemon._load_messages` (`daemon.py` lines 242–246): `[]` when
the file is missing; `json.loads` of the content otherwise, whose parse
failure propagates as an uncaught `json.JSONDecodeError`. -/
def load_messages (file : FileContent (List Message)) :
    Except String (List Message) :=
  match file with
  | .absent => .ok []
  | .corrupt => .error "json.decoder.JSONDecodeError"
  | .parsed v => .ok v

/-- Status dict persisted by `_write_status`; only the fields the claims
mention are kept. -/
structure StatusFile where
  state : String
  pid : Option Nat
  deriving DecidableEq, Repr

/-- `OracleDaemon.get_status` (`daemon.py` lines 154–158):
`{"state": "unknown"}` when the file is missing; `json.loads` of the
content otherwise, whose parse failure propagates. -/
def get_status (file : FileContent StatusFile) : Except String StatusFile :=
  match file with
  | .absent => .ok { state := "unknown", pid := none }
  | .corrupt => .error "json.decoder.JSONDecodeError"
  | .parsed v => .ok v

/-! ### Activity tracking — `oracle/context/context_manager.py`

`FileActivityTracker` keeps a bounded per-context event buffer and a
last-seen timestamp per context; `get_active_context` resolves the
active context by recency within a 300-second window. -/

/-- Event dict appended by `record_activity`:
`{"file": path, "event": kind, "timestamp": now.isoformat()}`. -/
structure ActivityEvent where
  file : String
  event : String
  timestamp : Int
  deriving DecidableEq, Repr

/-- `ContextType.all()` in `context_manager.py`. -/
def ContextTypeAll : List String := ["oracle", "dev", "dash", "crank", "pocket"]

/-- State of a `FileActivityTracker`: the `activity` dict (keys created
once in `__init__` for exactly the registered contexts) and the
`last_activity` dict (starts empty, keys added as contexts record). -/
structure TrackerState where
  activity : List (String × List ActivityEvent)
  last_activity : List (String × Int)
  deriving DecidableEq, Repr

/-- `FileActivityTracker.__init__`:
`self.activity = {ctx: [] for ctx in ContextType.all()}`,
`self.last_activity = {}`. -/
def initialTracker : TrackerState :=
  { activity := ContextTypeAll.map (fun c => (c, [])), last_activity := [] }

/-- `self.activity_window = 300` (seconds). -/
def activity_window : Int := 300

/-- `FileActivityTracker.record_activity(context, file_path, event_type)`
(`context_manager.py` lines 90–102): append the event to
`self.activity[context]` — a plain dict subscript, so an unregistered
context raises `KeyError`, modelled as `none` — update
`last_activity[context]`, then trim the buffer to its last 100
entries. -/
def record_activity (s : TrackerState) (context file_path event_type : String)
    (now : Int) : Option TrackerState :=
  match s.activity.find? (fun p => p.1 == context) with
  | none => none
  | some entry =>
    let evs := entry.2 ++ [{ file := file_path, event := event_type,
                             timestamp := now }]
    let evs := if evs.length > 100 then evs.drop (evs.length - 100) else evs
    some { activity :=
             s.activity.map (fun p => if p.1 == context then (p.1, evs) else p),
           last_activity := dictSet s.last_activity context now }

/-- Stable insert for the descending order on the last-seen timestamp:
the new element moves past entries with strictly greater timestamps only,
so among equal timestamps the earlier entry stays first. -/
def insertDesc (p : String × Int) : List (String × Int) → List (String × Int)
  | [] => [p]
  | q :: qs => if p.2 < q.2 then q :: insertDesc p qs else p :: q :: qs

/-- Stable descending sort by timestamp, modelling
`recent_contexts.sort(key=lambda x: x[1], reverse=True)` — Python's sort
is stable and `reverse=True` preserves the original order of equal
keys. -/
def sortDesc : List (String × Int) → List (String × Int)
  | [] => []
  | p :: ps => insertDesc p (sortDesc ps)

/-- `FileActivityTracker.get_active_context()` (`context_manager.py`
lines 104–118): collect the `(context, last_time)` pairs with
`(now - last_time).total_seconds() < self.activity_window`, iterating
`last_activity` in insertion order; `None` when none qualify; otherwise
sort descending by timestamp (stable) and return the first context. -/
def get_active_context (now : Int) (s : TrackerState) : Option String :=
  let recent := s.last_activity.filter (fun p => now - p.2 < activity_window)
  (sortDesc recent).head?.map Prod.fst

/-! ### File events — `ContextFileHandler` (`context_manager.py` 143–175)

The watchdog handler drops directory events and ignored paths and
forwards everything else to `record_activity`.  It keeps no per-path
timing state: there is no debounce at this layer. -/

/-- `self.ignore_patterns` of `ContextFileHandler`. -/
def ignore_patterns : List String :=
  ["__pycache__", ".pyc", ".git", "node_modules", ".DS_Store", "*.log"]

/-- `ContextFileHandler.should_ignore(path)`: true when any pattern
occurs as a substring of the path (Python `pattern in path`). -/
def should_ignore (path : String) : Bool :=
  ignore_patterns.any (fun pat => hasSeg pat.data path.data)

/-- `ContextFileHandler.on_modified` / `on_created` / `on_deleted`
(`context_manager.py` lines 165–175): record unless the event is a
directory event or the path is ignored.  All three methods are this
function at a different `event_type` string. -/
def handle_event (s : TrackerState) (context : String) (is_directory : Bool)
    (src_path event_type : String) (now : Int) : Option TrackerState :=
  if !is_directory && !should_ignore src_path then
    record_activity s context src_path event_type now
  else some s

/-! ### Debounce — `oracle/seeg.py` (`HealthMonitorEventHandler`)

The only 1-second per-path debounce in the repository lives in the
health monitor's watchdog handler, not in `ContextFileHandler`.  Event
times (`time.time()` float seconds) are modelled as integer seconds. -/

/-- `WATCHED_EXTENSIONS` in `seeg.py`. -/
def WATCHED_EXTENSIONS : List String := [".py", ".md", ".json"]

/-- `self.debounce_seconds = 1.0`. -/
def debounce_seconds : Int := 1

/-- Per-path last-event times of `HealthMonitorEventHandler`
(`self.last_event_time`, a dict path → time). -/
structure DebounceState where
  last_event_time : List (String × Int)
  deriving DecidableEq, Repr

/-- `HealthMonitorEventHandler._should_process(path)` (`seeg.py` lines
203–216): skip paths whose suffix is not watched; drop the event when
the same path fired less than `debounce_seconds` ago (leaving the
recorded time unchanged); otherwise record the time and process.  The
extension `Path(path).suffix.lower()` is passed in explicitly. -/
def should_process (s : DebounceState) (ext path : String) (now : Int) :
    Bool × DebounceState :=
  if ext ∉ WATCHED_EXTENSIONS then (false, s)
  else
    match s.last_event_time.find? (fun p => p.1 == path) with
    | some entry =>
      if now - entry.2 < debounce_seconds then (false, s)
      else (true, { last_event_time := dictSet s.last_event_time path now })
    | none => (true, { last_event_time := dictSet s.last_event_time path now })

/-! ### Daemon lifecycle — `oracle/daemon/oracle_daemon.py`

`OracleDaemonService.start` (lines 267–296) guards against a second
instance through the PID lock file.  `_read_pid` returns the integer
recorded in the lock, or `None` when the file is absent or unparsable;
the lock is modelled as that parse result.  Liveness of a pid
(`_is_running`, `os.kill(pid, 0)`) is an oracle `alive : Nat → Bool`
supplied by the environment. -/

/-- Lock-file state of `OracleDaemonService`: `pid_file` is the parse
result of `_read_pid` (`none` — no lock or unreadable). -/
structure ServiceState where
  pid_file : Option Nat
  deriving DecidableEq, Repr

/-- `OracleDaemonService.start` (PID-lock part, lines 267–296): fail
when the lock holds a pid that is truthy (non-zero) and alive, leaving
the lock untouched; otherwise remove any stale lock and record the
starting process's own pid (`_write_pid_file`, reached directly in
foreground mode and at the end of `_daemonize` in background mode).
Returns the Python return value and the lock state after the call. -/
def startService (alive : Nat → Bool) (self_pid : Nat) (s : ServiceState) :
    Bool × ServiceState :=
  match s.pid_file with
  | some existing_pid =>
    if existing_pid ≠ 0 ∧ alive existing_pid then (false, s)
    else (true, { pid_file := some self_pid })
  | none => (true, { pid_file := some self_pid })

/-- Ordering the specification asks of an inbox listing, as a relation
between adjacent results: priority descending (so rank ascending) and,
within one priority tier, creation time ascending. -/
def msgAfter (a b : Message) : Prop :=
  priorityRank a.priority < priorityRank b.priority ∨
    (priorityRank a.priority = priorityRank b.priority ∧
      a.createdAt ≤ b.createdAt)


/-! ### Association-list lemmas -/

theorem find?_update_eq {α : Type} (l : List (String × α)) (k : String)
    (v : α) (e : String × α)
    (h : l.find? (fun p => p.1 == k) = some e) :
    (l.map (fun p => if p.1 == k then (p.1, v) else p)).find?
        (fun p => p.1 == k) = some (k, v) := by
  induction l with
  | nil => simp at h
  | cons p ps ih =>
    cases hpk : (p.1 == k) with
    | true =>
      have hk : p.1 = k := eq_of_beq hpk
      rw [List.map_cons, if_pos hpk]
      simp only [List.find?_cons, hpk, hk, beq_self_eq_true]
    | false =>
      simp only [List.find?_cons, hpk] at h
      rw [List.map_cons, if_neg (by simp [hpk])]
      simp only [List.find?_cons, hpk]
      exact ih h

theorem find?_update_isSome {α : Type} (l : List (String × α))
    (k x : String) (v : α) :
    ((l.map (fun p => if p.1 == k then (p.1, v) else p)).find?
        (fun p => p.1 == x)).isSome
      = (l.find? (fun p => p.1 == x)).isSome := by
  induction l with
  | nil => rfl
  | cons p ps ih =>
    have hfst : (if p.1 == k then (p.1, v) else p).1 = p.1 := by
      split <;> rfl
    cases hpx : (p.1 == x) with
    | true =>
      simp only [List.map_cons, List.find?_cons, hfst, hpx]
      rfl
    | false =>
      simp only [List.map_cons, List.find?_cons, hfst, hpx]
      exact ih

theorem find?_map_overwrite {α : Type} (l : List (String × α))
    (k : String) (v : α)
    (h : l.any (fun p => p.1 == k) = true) :
    (l.map (fun p => if p.1 == k then (k, v) else p)).find?
        (fun p => p.1 == k) = some (k, v) := by
  induction l with
  | nil => simp at h
  | cons p ps ih =>
    cases hpk : (p.1 == k) with
    | true =>
      rw [List.map_cons, if_pos hpk]
      simp only [List.find?_cons, beq_self_eq_true]
    | false =>
      rw [List.any_cons, hpk, Bool.false_or] at h
      rw [List.map_cons, if_neg (by simp [hpk])]
      simp only [List.find?_cons, hpk]
      exact ih h

theorem find?_append_new {α : Type} (l : List (String × α))
    (k : String) (v : α)
    (h : l.any (fun p => p.1 == k) = false) :
    (l ++ [(k, v)]).find? (fun p => p.1 == k) = some (k, v) := by
  induction l with
  | nil =>
    rw [List.nil_append]
    simp only [List.find?_cons, beq_self_eq_true]
  | cons p ps ih =>
    rw [List.any_cons, Bool.or_eq_false_iff] at h
    rw [List.cons_append]
    simp only [List.find?_cons, h.1]
    exact ih h.2

theorem find?_dictSet {α : Type} (l : List (String × α)) (k : String)
    (v : α) :
    (dictSet l k v).find? (fun p => p.1 == k) = some (k, v) := by
  cases h : l.any (fun p => p.1 == k) with
  | true =>
    rw [dictSet, if_pos h]
    exact find?_map_overwrite l k v h
  | false =>
    rw [dictSet, if_neg (by simp [h])]
    exact find?_append_new l k v h

/-! ### Stable-sort lemmas -/

theorem insertDesc_perm (p : String × Int) (l : List (String × Int)) :
    (insertDesc p l).Perm (p :: l) := by
  induction l with
  | nil => exact List.Perm.refl _
  | cons q qs ih =>
    simp only [insertDesc]
    by_cases h : p.2 < q.2
    · rw [if_pos h]
      exact (ih.cons q).trans (List.Perm.swap p q qs)
    · rw [if_neg h]

theorem sortDesc_perm (l : List (String × Int)) : (sortDesc l).Perm l := by
  induction l with
  | nil => exact List.Perm.refl _
  | cons p ps ih =>
    simp only [sortDesc]
    exact (insertDesc_perm p (sortDesc ps)).trans (ih.cons p)

theorem head?_insertDesc (p : String × Int) (l : List (String × Int)) :
    (insertDesc p l).head? =
      some (match l.head? with
            | none => p
            | some q => if p.2 < q.2 then q else p) := by
  cases l with
  | nil => rfl
  | cons q qs =>
    simp only [insertDesc, List.head?_cons]
    by_cases h : p.2 < q.2
    · rw [if_pos h, if_pos h]
      rfl
    · rw [if_neg h, if_neg h]
      rfl

theorem sortDesc_head_max (l : List (String × Int)) (q : String × Int)
    (h : (sortDesc l).head? = some q) :
    q ∈ l ∧ ∀ p ∈ l, p.2 ≤ q.2 := by
  induction l generalizing q with
  | nil => simp [sortDesc] at h
  | cons p ps ih =>
    simp only [sortDesc] at h
    rw [head?_insertDesc] at h
    cases hh : (sortDesc ps).head? with
    | none =>
      simp only [hh] at h
      have hnil : sortDesc ps = [] := List.head?_eq_none_iff.mp hh
      have hps : ps = [] := by
        have := sortDesc_perm ps
        rw [hnil] at this
        exact (this.symm).eq_nil
      injection h with h
      subst h
      subst hps
      refine ⟨List.mem_cons_self _ _, ?_⟩
      intro x hx
      rcases List.mem_cons.mp hx with rfl | hx'
      · exact le_refl _
      · simp at hx'
    | some r =>
      obtain ⟨hrmem, hrmax⟩ := ih r hh
      simp only [hh] at h
      by_cases hlt : p.2 < r.2
      · rw [if_pos hlt] at h
        injection h with h
        subst h
        refine ⟨List.mem_cons_of_mem _ hrmem, ?_⟩
        intro x hx
        rcases List.mem_cons.mp hx with rfl | hx'
        · exact le_of_lt hlt
        · exact hrmax x hx'
      · rw [if_neg hlt] at h
        injection h with h
        subst h
        refine ⟨List.mem_cons_self _ _, ?_⟩
        intro x hx
        rcases List.mem_cons.mp hx with rfl | hx'
        · exact le_refl _
        · exact le_trans (hrmax x hx') (not_lt.mp hlt)

theorem sortDesc_head_firstMax (pre post : List (String × Int)) (c : String)
    (t : Int) (hpre : ∀ q ∈ pre, q.2 < t) (hpost : ∀ q ∈ post, q.2 ≤ t) :
    (sortDesc (pre ++ (c, t) :: post)).head? = some (c, t) := by
  induction pre with
  | nil =>
    rw [List.nil_append]
    simp only [sortDesc]
    rw [head?_insertDesc]
    cases hh : (sortDesc post).head? with
    | none => simp [hh]
    | some r =>
      have hr := sortDesc_head_max post r hh
      have hle : ¬((c, t).2 < r.2) := not_lt.mpr (hpost r hr.1)
      simp only [hh, if_neg hle]
  | cons p pre' ih =>
    have hp : p.2 < t := hpre p (List.mem_cons_self _ _)
    rw [List.cons_append]
    simp only [sortDesc]
    rw [head?_insertDesc]
    simp only [ih (fun q hq => hpre q (List.mem_cons_of_mem _ hq)), if_pos hp]

theorem insertAsc_perm (m : Message) (l : List Message) :
    (insertAsc m l).Perm (m :: l) := by
  induction l with
  | nil => exact List.Perm.refl _
  | cons q qs ih =>
    simp only [insertAsc]
    by_cases h : msgKeyLt q m = true
    · rw [if_pos h]
      exact (ih.cons q).trans (List.Perm.swap m q qs)
    · rw [if_neg h]

theorem sortMessages_perm (l : List Message) : (sortMessages l).Perm l := by
  induction l with
  | nil => exact List.Perm.refl _
  | cons m ms ih =>
    simp only [sortMessages]
    exact (insertAsc_perm m (sortMessages ms)).trans (ih.cons m)

theorem msgAfter_of_lt {a b : Message} (h : msgKeyLt a b = true) :
    msgAfter a b := by
  simp only [msgKeyLt, Bool.or_eq_true, Bool.and_eq_true,
    decide_eq_true_eq] at h
  unfold msgAfter
  omega

theorem msgAfter_of_not_lt {a b : Message} (h : msgKeyLt a b = false) :
    msgAfter b a := by
  simp only [msgKeyLt, Bool.or_eq_false_iff, Bool.and_eq_false_iff,
    decide_eq_false_iff_not] at h
  unfold msgAfter
  omega

theorem msgAfter_trans {a b c : Message} (hab : msgAfter a b)
    (hbc : msgAfter b c) : msgAfter a c := by
  unfold msgAfter at *
  omega

theorem pairwise_insertAsc (m : Message) (l : List Message)
    (h : l.Pairwise msgAfter) : (insertAsc m l).Pairwise msgAfter := by
  induction l with
  | nil => simp [insertAsc]
  | cons q qs ih =>
    rw [List.pairwise_cons] at h
    obtain ⟨hq, hqs⟩ := h
    simp only [insertAsc]
    by_cases hlt : msgKeyLt q m = true
    · rw [if_pos hlt, List.pairwise_cons]
      refine ⟨?_, ih hqs⟩
      intro x hx
      rcases List.mem_cons.mp ((insertAsc_perm m qs).mem_iff.mp hx) with rfl | hx'
      · exact msgAfter_of_lt hlt
      · exact hq x hx'
    · have hlt' : msgKeyLt q m = false := by simpa using hlt
      rw [if_neg hlt, List.pairwise_cons]
      refine ⟨?_, List.pairwise_cons.mpr ⟨hq, hqs⟩⟩
      intro x hx
      rcases List.mem_cons.mp hx with rfl | hx'
      · exact msgAfter_of_not_lt hlt'
      · exact msgAfter_trans (msgAfter_of_not_lt hlt') (hq x hx')

theorem sortMessages_pairwise (l : List Message) :
    (sortMessages l).Pairwise msgAfter := by
  induction l with
  | nil => exact List.Pairwise.nil
  | cons m ms ih =>
    simp only [sortMessages]
    exact pairwise_insertAsc m (sortMessages ms) ih

/-! ### Claim theorems -/

/-- C1, counterexample.  With the specification's own scenario —
contexts `{oracle, dev, dash}` and the single rule
`dev.to.dash = [new_feature_available]` — `send_message` accepts
`send(dev, dash, type="bug_report")` although `"bug_report"` is not in
the rule set (the type is never checked), and `send_handoff` rejects the
coordinator's `send(oracle, dash, type="anything")` although the claim
exempts the coordinator from the rules. -/
theorem send_policy_counterexample :
    (send_message ["oracle", "dev", "dash"]
        [("dev", [("dash", ["new_feature_available"])])] [] "dev" "dash" "Y"
        "bug_report" "normal" 0).success = true
    ∧ send_handoff [("dev", [("dash", ["new_feature_available"])])]
        (some []) "oracle" "dash" "anything" "Z" "normal" = none := by
  exact ⟨by decide, by decide⟩

/-- C1, amended.  `OracleDaemon.send_message` succeeds iff both contexts
are registered and (the sender is `"oracle"`, or the target is
`"oracle"`, or the target is a key of the sender's `sends_to` table);
the message type is never consulted.  On failure the log is unchanged;
on success exactly the new message is appended, carrying the requested
type.  `SessionSpawner.send_handoff` succeeds iff the message type is in
the rule set for the `(from, to)` pair and a database session exists,
with no exemption for the coordinator. -/
theorem send_policy_characterization (all : List String)
    (rules : HandoffRules) (log : List Message) (f t c ty pr : String)
    (now : Nat) :
    ((send_message all rules log f t c ty pr now).success = true ↔
      (f ∈ all ∧ t ∈ all ∧
        (f = "oracle" ∨ t = "oracle" ∨ t ∈ sendTargets rules f)))
    ∧ ((send_message all rules log f t c ty pr now).success = false →
        (send_message all rules log f t c ty pr now).log = log)
    ∧ (∀ m lg, send_message all rules log f t c ty pr now =
          SendResult.ok m lg → lg = log ++ [m] ∧ m.msgType = ty)
    ∧ (∀ (db : Option (List DbMessage)) (content : String),
        (send_handoff rules db f t ty content pr).isSome ↔
          (ty ∈ allowedTypes rules f t ∧ db.isSome)) := by
  refine ⟨?_, ?_, ?_, ?_⟩
  · unfold send_message
    split_ifs with h1 h2 <;> simp [SendResult.success] <;> tauto
  · unfold send_message
    split_ifs <;> intro h
    · rfl
    · rfl
    · exact absurd h (by simp [SendResult.success])
  · unfold send_message
    split_ifs <;> intro m lg hok
    · exact absurd hok (by simp)
    · exact absurd hok (by simp)
    · injection hok with hm hl
      subst hm
      subst hl
      exact ⟨rfl, rfl⟩
  · intro db content
    unfold send_handoff
    by_cases h : ty ∈ allowedTypes rules f t
    · rw [if_neg (not_not_intro h)]
      cases db with
      | none => simp
      | some msgs => simp [h]
    · rw [if_pos h]
      simp [h]

/-- C1, witness for the amended theorem: with the default registry and
fallback rules, `dev` may send a `preset_added` message to `dash`. -/
theorem send_policy_characterization_witness :
    (send_message ALL_CONTEXTS HANDOFF_RULES [] "dev" "dash" "c"
        "preset_added" "normal" 0).success = true :=
  (send_policy_characterization ALL_CONTEXTS HANDOFF_RULES [] "dev" "dash"
      "c" "preset_added" "normal" 0).1.mpr (by decide)

/-- C5. When the PID lock parses to a live (non-zero) pid, `start` fails
and leaves the lock untouched; when it parses to a dead pid, `start`
reclaims the stale lock and records its own pid in its place. -/
theorem start_pid_lock_behavior (alive : Nat → Bool) (self_pid : Nat)
    (s : ServiceState) (p : Nat) (hp : s.pid_file = some p)
    (hpos : 0 < p) :
    (alive p = true → startService alive self_pid s = (false, s))
    ∧ (alive p = false →
        startService alive self_pid s = (true, ⟨some self_pid⟩)) := by
  constructor
  · intro ha
    simp only [startService, hp]
    rw [if_pos ⟨by omega, ha⟩]
  · intro ha
    simp only [startService, hp]
    rw [if_neg]
    intro hcontra
    rw [ha] at hcontra
    exact Bool.false_ne_true hcontra.2

/-- C5, witness: a lock naming live pid 42 blocks the start; a lock
naming dead pid 42 is replaced by the starter's pid 7. -/
theorem start_pid_lock_behavior_witness :
    startService (fun _ => true) 7 ⟨some 42⟩ = (false, ⟨some 42⟩)
    ∧ startService (fun _ => false) 7 ⟨some 42⟩ = (true, ⟨some 7⟩) :=
  ⟨(start_pid_lock_behavior (fun _ => true) 7 ⟨some 42⟩ 42 rfl
      (by decide)).1 rfl,
   (start_pid_lock_behavior (fun _ => false) 7 ⟨some 42⟩ 42 rfl
      (by decide)).2 rfl⟩

/-- C6, counterexample.  `mark_read` called a second time on the same id
at a later clock reading overwrites `read_at` with the new time, so the
resulting log differs from the state after the first call — the second
call is not a no-op, and an already-read message is not left
unchanged.  The message record fields are, in order: id, from, to,
content, type, priority, created_at, read_at. -/
theorem mark_read_counterexample :
    mark_read (mark_read
        [⟨1, "dev", "oracle", "c", "info", "normal", 0, none⟩] 1 10) 1 20
      ≠ mark_read
        [⟨1, "dev", "oracle", "c", "info", "normal", 0, none⟩] 1 10 := by
  decide

/-- C6, amended.  `mark_read` with an unknown id saves the log
unchanged; on a present id it overwrites the first matching message's
`read_at` with the current time, already-read or not, so a repeated call
collapses to the last call (and is a no-op only at an unchanged clock
reading). -/
theorem mark_read_characterization :
    (∀ (log : List Message) (message_id now : Nat),
        (∀ m ∈ log, m.id ≠ message_id) →
        mark_read log message_id now = log)
    ∧ (∀ (log : List Message) (message_id t t' : Nat),
        mark_read (mark_read log message_id t) message_id t' =
          mark_read log message_id t') := by
  constructor
  · intro log message_id now h
    induction log with
    | nil => rfl
    | cons m rest ih =>
      simp only [mark_read, if_neg (h m (List.mem_cons_self _ _))]
      rw [ih (fun x hx => h x (List.mem_cons_of_mem _ hx))]
  · intro log message_id t t'
    induction log with
    | nil => rfl
    | cons m rest ih =>
      by_cases hid : m.id = message_id
      · simp only [mark_read, if_pos hid]
      · simp only [mark_read, if_neg hid]
        rw [ih]

/-- C6, witness for the amended theorem: a log without id 5 is unchanged
by `mark_read 5`, and repeating `mark_read 1` at time 7 after marking at
time 3 equals marking once at time 7. -/
theorem mark_read_characterization_witness :
    mark_read [⟨1, "dev", "oracle", "c", "info", "normal", 0, none⟩] 5 9
      = [⟨1, "dev", "oracle", "c", "info", "normal", 0, none⟩]
    ∧ mark_read (mark_read
        [⟨1, "dev", "oracle", "c", "info", "normal", 0, none⟩] 1 3) 1 7
      = mark_read
        [⟨1, "dev", "oracle", "c", "info", "normal", 0, none⟩] 1 7 :=
  ⟨mark_read_characterization.1 _ 5 9 (by decide),
   mark_read_characterization.2 _ 1 3 7⟩

/-- C7, counterexample.  A message log or status file that exists but
fails to parse as JSON makes the reader propagate the parse error —
there is no fallback to an empty or default value for corrupt content
(`json.loads` is called outside any exception handler). -/
theorem corrupt_state_counterexample :
    load_messages FileContent.corrupt =
        Except.error "json.decoder.JSONDecodeError"
    ∧ get_status FileContent.corrupt =
        Except.error "json.decoder.JSONDecodeError" :=
  ⟨rfl, rfl⟩

/-- C7, amended.  The readers fall back to the empty list, respectively
the `{"state": "unknown"}` default, only when the file is absent; a file
that parses returns its value, and a present-but-unparsable file raises
the JSON decode error instead of falling back. -/
theorem corrupt_state_fallback_only_when_absent :
    load_messages FileContent.absent = Except.ok []
    ∧ get_status FileContent.absent = Except.ok ⟨"unknown", none⟩
    ∧ (∀ v : List Message,
        load_messages (FileContent.parsed v) = Except.ok v)
    ∧ (∀ v : StatusFile, get_status (FileContent.parsed v) = Except.ok v)
    ∧ load_messages FileContent.corrupt =
        Except.error "json.decoder.JSONDecodeError"
    ∧ get_status FileContent.corrupt =
        Except.error "json.decoder.JSONDecodeError" :=
  ⟨rfl, rfl, fun _ => rfl, fun _ => rfl, rfl, rfl⟩

/-- C2. `get_active_context` returns `None` exactly when no context's
last-seen timestamp lies inside the 300-second activity window, and any
context it returns qualifies for the window and carries a maximal
last-seen timestamp among the qualifying contexts — in particular a
context whose last event left the window is never returned. -/
theorem active_context_max_recency (now : Int) (s : TrackerState) :
    (get_active_context now s = none ↔
      ∀ p ∈ s.last_activity, ¬(now - p.2 < activity_window))
    ∧ (∀ c : String, get_active_context now s = some c →
        ∃ t : Int, (c, t) ∈ s.last_activity ∧ now - t < activity_window ∧
          ∀ p ∈ s.last_activity, now - p.2 < activity_window → p.2 ≤ t) := by
  constructor
  · simp only [get_active_context]
    rw [Option.map_eq_none', List.head?_eq_none_iff]
    constructor
    · intro h p hp hw
      have hmem : p ∈ sortDesc (s.last_activity.filter
          (fun q => now - q.2 < activity_window)) :=
        (sortDesc_perm _).mem_iff.mpr
          (List.mem_filter.mpr ⟨hp, by simpa using hw⟩)
      rw [h] at hmem
      simp at hmem
    · intro h
      have hfil : s.last_activity.filter
          (fun q => now - q.2 < activity_window) = [] :=
        List.filter_eq_nil_iff.mpr (fun p hp => by simpa using h p hp)
      rw [hfil]
      rfl
  · intro c hc
    simp only [get_active_context] at hc
    rcases Option.map_eq_some'.mp hc with ⟨q, hq, hqc⟩
    obtain ⟨hmem, hmax⟩ := sortDesc_head_max _ q hq
    rcases List.mem_filter.mp hmem with ⟨hmem', hwin⟩
    refine ⟨q.2, ?_, by simpa using hwin, ?_⟩
    · rw [← hqc]
      exact hmem'
    · intro p hp hpw
      exact hmax p (List.mem_filter.mpr ⟨hp, by simpa using hpw⟩)

/-- C2, witness: a single context whose last event is 500 seconds old is
outside the window, so no context is active. -/
theorem active_context_max_recency_witness :
    get_active_context 0 (⟨[], [("dev", -500)]⟩ : TrackerState) = none :=
  (active_context_max_recency 0 ⟨[], [("dev", -500)]⟩).1.mpr (by decide)

/-- C9, counterexample.  Two tracker states holding the same
`(context, last-seen)` pairs — `dash` and `dev`, both last seen at time
0 — yield different active contexts depending only on the insertion
order of the `last_activity` map, so the tie is not resolved by any rule
on context identity. -/
theorem tie_break_counterexample :
    ((⟨[], [("dash", 0), ("dev", 0)]⟩ : TrackerState).last_activity).Perm
        ((⟨[], [("dev", 0), ("dash", 0)]⟩ : TrackerState).last_activity)
    ∧ get_active_context 0 (⟨[], [("dash", 0), ("dev", 0)]⟩ : TrackerState)
        = some "dash"
    ∧ get_active_context 0 (⟨[], [("dev", 0), ("dash", 0)]⟩ : TrackerState)
        = some "dev" := by
  exact ⟨by decide, by decide, by decide⟩

/-- C9, amended.  Equal in-window last-seen timestamps are resolved by
the insertion order of the `last_activity` dict: the entry that attains
the qualifying maximum first — every earlier qualifying entry strictly
older, every later qualifying entry no newer — is returned, because the
descending sort is stable. -/
theorem tie_break_insertion_order (now : Int) (s : TrackerState)
    (pre post : List (String × Int)) (c : String) (t : Int)
    (hs : s.last_activity = pre ++ (c, t) :: post)
    (hwin : now - t < activity_window)
    (hpre : ∀ q ∈ pre, now - q.2 < activity_window → q.2 < t)
    (hpost : ∀ q ∈ post, now - q.2 < activity_window → q.2 ≤ t) :
    get_active_context now s = some c := by
  simp only [get_active_context, hs]
  rw [List.filter_append, List.filter_cons, if_pos (by simpa using hwin)]
  rw [sortDesc_head_firstMax]
  · rfl
  · intro q hq
    rcases List.mem_filter.mp hq with ⟨h1, h2⟩
    exact hpre q h1 (by simpa using h2)
  · intro q hq
    rcases List.mem_filter.mp hq with ⟨h1, h2⟩
    exact hpost q h1 (by simpa using h2)

/-- C9, witness for the amended theorem: with `crank` outside the window
and `dev` and `dash` tied at time 5, the first-inserted `dev` wins. -/
theorem tie_break_insertion_order_witness :
    get_active_context 5
        (⟨[], [("crank", -1000), ("dev", 5), ("dash", 5)]⟩ : TrackerState)
      = some "dev" :=
  tie_break_insertion_order 5 ⟨[], [("crank", -1000), ("dev", 5), ("dash", 5)]⟩
    [("crank", -1000)] [("dash", 5)] "dev" 5 rfl (by decide) (by decide)
    (by decide)

/-- C4. `get_messages_for` returns a permutation of exactly the messages
addressed to the context or to `"all"` (the unread ones when
`unread_only` is set): membership is preserved with multiplicity, and
the output is ordered by priority descending (urgent, high, normal, low)
with creation time ascending inside each tier. -/
theorem inbox_filter_sorted (log : List Message) (context : String)
    (unread_only : Bool) :
    (get_messages_for log context unread_only).Perm
        (log.filter (inboxPred context unread_only))
    ∧ (∀ m : Message, m ∈ get_messages_for log context unread_only ↔
        (m ∈ log ∧ (m.toCtx = context ∨ m.toCtx = "all") ∧
          (unread_only = true → m.readAt = none)))
    ∧ (get_messages_for log context unread_only).Pairwise msgAfter := by
  refine ⟨sortMessages_perm _, ?_, sortMessages_pairwise _⟩
  intro m
  unfold get_messages_for
  rw [(sortMessages_perm _).mem_iff, List.mem_filter]
  unfold inboxPred
  cases unread_only <;> simp [Option.isNone_iff_eq_none]

/-- C4, witness: in a log holding an `"all"`-addressed normal message
created at 3 and a `dev`-addressed urgent message created at 5, the
urgent message is in `dev`'s unread inbox. -/
theorem inbox_filter_sorted_witness :
    (⟨2, "oracle", "dev", "b", "info", "urgent", 5, none⟩ : Message) ∈
      get_messages_for
        [⟨1, "oracle", "all", "a", "info", "normal", 3, none⟩,
         ⟨2, "oracle", "dev", "b", "info", "urgent", 5, none⟩] "dev" true :=
  ((inbox_filter_sorted
      [⟨1, "oracle", "all", "a", "info", "normal", 3, none⟩,
       ⟨2, "oracle", "dev", "b", "info", "urgent", 5, none⟩] "dev"
      true).2.1 ⟨2, "oracle", "dev", "b", "info", "urgent", 5, none⟩).mpr
    ⟨by decide, by decide, by decide⟩

theorem find?_isSome_keys (l : List String) (c : String) :
    ((l.map (fun x => (x, ([] : List ActivityEvent)))).find?
        (fun p => p.1 == c)).isSome ↔ c ∈ l := by
  induction l with
  | nil => simp
  | cons x xs ih =>
    cases hxc : (x == c) with
    | true =>
      have hx : x = c := eq_of_beq hxc
      simp only [List.map_cons, List.find?_cons, hxc]
      simp [hx]
    | false =>
      simp only [List.map_cons, List.find?_cons, hxc]
      rw [ih]
      constructor
      · exact fun h => List.mem_cons_of_mem _ h
      · intro h
        rcases List.mem_cons.mp h with rfl | h
        · simp at hxc
        · exact h

/-- C10.  `record_activity` succeeds exactly when the context is a key
of the `activity` dict; that key set is the registered context list in
the initial state and is preserved by every recording, the per-context
buffer never exceeds 100 events after a recording, and an unregistered
context makes the call fail (the `KeyError`, modelled as `none`) rather
than reject or ignore the event. -/
theorem record_activity_registry_total :
    (∀ (s : TrackerState) (c path kind : String) (t : Int),
        (record_activity s c path kind t).isSome =
          (s.activity.find? (fun p => p.1 == c)).isSome)
    ∧ (∀ c : String,
        ((initialTracker.activity.find? (fun p => p.1 == c)).isSome ↔
          c ∈ ContextTypeAll))
    ∧ (∀ (s s' : TrackerState) (c path kind : String) (t : Int),
        record_activity s c path kind t = some s' →
        (∀ x : String,
            (s'.activity.find? (fun p => p.1 == x)).isSome =
              (s.activity.find? (fun p => p.1 == x)).isSome)
          ∧ ∀ e, s'.activity.find? (fun p => p.1 == c) = some e →
              e.2.length ≤ 100) := by
  refine ⟨?_, ?_, ?_⟩
  · intro s c path kind t
    cases h : s.activity.find? (fun p => p.1 == c) with
    | none => simp [record_activity, h]
    | some entry => simp [record_activity, h]
  · intro c
    exact find?_isSome_keys ContextTypeAll c
  · intro s s' c path kind t h
    cases hf : s.activity.find? (fun p => p.1 == c) with
    | none => simp [record_activity, hf] at h
    | some entry =>
      simp only [record_activity, hf, Option.some.injEq] at h
      subst h
      constructor
      · intro x
        exact find?_update_isSome s.activity c x _
      · intro e he
        rw [find?_update_eq s.activity c _ entry hf] at he
        injection he with he
        subst he
        by_cases hl :
            (entry.2 ++ [(⟨path, kind, t⟩ : ActivityEvent)]).length > 100
        · rw [if_pos hl]
          simp only [List.length_drop, List.length_append, List.length_cons,
            List.length_nil] at hl ⊢
          omega
        · rw [if_neg hl]
          simp only [List.length_append, List.length_cons, List.length_nil] at hl ⊢
          omega

/-- C10, witness: recording for the registered context `dev` succeeds
from the initial state, while the unregistered name `ghost` fails with
the key error. -/
theorem record_activity_registry_total_witness :
    ((record_activity initialTracker "dev" "app/core/api.py" "modified"
        0).isSome = true)
    ∧ ((record_activity initialTracker "ghost" "app/core/api.py" "modified"
        0).isSome = false) :=
  ⟨by rw [record_activity_registry_total.1 initialTracker "dev"
        "app/core/api.py" "modified" 0]; decide,
   by rw [record_activity_registry_total.1 initialTracker "ghost"
        "app/core/api.py" "modified" 0]; decide⟩

theorem record_activity_step (s : TrackerState) (c path kind : String)
    (t : Int) (entry : String × List ActivityEvent) (s' : TrackerState)
    (hf : s.activity.find? (fun p => p.1 == c) = some entry)
    (hlen : entry.2.length ≤ 99)
    (h : record_activity s c path kind t = some s') :
    s'.activity.find? (fun p => p.1 == c) =
      some (c, entry.2 ++ [⟨path, kind, t⟩]) := by
  have hno : ¬((entry.2 ++ [(⟨path, kind, t⟩ : ActivityEvent)]).length > 100) := by
    simp only [List.length_append, List.length_cons, List.length_nil]
    omega
  simp only [record_activity, hf, Option.some.injEq] at h
  subst h
  rw [if_neg hno]
  exact find?_update_eq s.activity c _ entry hf

/-- C3, counterexample.  `ContextFileHandler` keeps no per-path timing
state: two `modified` events on the same non-ignored path delivered at
the same second — well within 1 second of each other — are both
forwarded to `record_activity`, so two `ActivityEvent`s end up in the
`dev` buffer, not one. -/
theorem handler_no_debounce_counterexample :
    ((handle_event initialTracker "dev" false "app/core/api.py" "modified"
          0).bind
        (fun s1 => handle_event s1 "dev" false "app/core/api.py" "modified"
          0)).map
      (fun s2 => (s2.activity.find? (fun p => p.1 == "dev")).map
        (fun e => e.2.length)) = some (some 2) := by
  decide

/-- C3, amended.  `ContextFileHandler` applies no debounce at all: for
any two event times — 1 second apart or not — two events on the same
non-ignored path append two `ActivityEvent`s to the context's buffer.
The 1.0-second per-path debounce exists only in the health monitor's
`HealthMonitorEventHandler._should_process` (`seeg.py`), which drops a
second same-path event less than 1 second after the first and processes
one at 1 second or later. -/
theorem handler_records_without_debounce :
    (∀ (s : TrackerState) (c path kind : String) (t1 t2 : Int)
        (entry : String × List ActivityEvent) (s1 s2 : TrackerState),
        should_ignore path = false →
        s.activity.find? (fun p => p.1 == c) = some entry →
        entry.2.length ≤ 98 →
        handle_event s c false path kind t1 = some s1 →
        handle_event s1 c false path kind t2 = some s2 →
        s2.activity.find? (fun p => p.1 == c) =
          some (c, entry.2 ++ [⟨path, kind, t1⟩, ⟨path, kind, t2⟩]))
    ∧ (∀ (d : DebounceState) (ext path : String) (t1 t2 : Int),
        ext ∈ WATCHED_EXTENSIONS →
        d.last_event_time.find? (fun p => p.1 == path) = none →
        (should_process d ext path t1).1 = true ∧
        (t2 - t1 < 1 →
          should_process (should_process d ext path t1).2 ext path t2 =
            (false, (should_process d ext path t1).2)) ∧
        (1 ≤ t2 - t1 →
          (should_process (should_process d ext path t1).2 ext path t2).1 =
            true)) := by
  constructor
  · intro s c path kind t1 t2 entry s1 s2 hig hf hlen h1 h2
    rw [handle_event, if_pos (by simp [hig])] at h1
    rw [handle_event, if_pos (by simp [hig])] at h2
    have e1 : s1.activity.find? (fun p => p.1 == c) =
        some (c, entry.2 ++ [⟨path, kind, t1⟩]) :=
      record_activity_step s c path kind t1 entry s1 hf (by omega) h1
    have e2 : s2.activity.find? (fun p => p.1 == c) =
        some (c, (entry.2 ++ [⟨path, kind, t1⟩]) ++ [⟨path, kind, t2⟩]) :=
      record_activity_step s1 c path kind t2 _ s2 e1
        (by simp only [List.length_append, List.length_cons,
              List.length_nil]
            omega) h2
    rw [e2, List.append_assoc]
    rfl
  · intro d ext path t1 t2 hext hnone
    have h1 : should_process d ext path t1 =
        (true, ⟨dictSet d.last_event_time path t1⟩) := by
      rw [should_process, if_neg (not_not_intro hext)]
      simp only [hnone]
    refine ⟨by rw [h1], ?_, ?_⟩
    · intro hlt
      rw [h1]
      rw [should_process, if_neg (not_not_intro hext)]
      simp only [find?_dictSet]
      split
      · rfl
      · exact absurd hlt (by assumption)
    · intro hge
      rw [h1]
      rw [should_process, if_neg (not_not_intro hext)]
      simp only [find?_dictSet]
      split
      · exfalso
        rename_i hcond
        have hlt : t2 - t1 < 1 := hcond
        omega
      · rfl

/-- C3, witness for the amended theorem: in the health monitor's
handler, a fresh `.py` path is processed and an immediate repeat (0
seconds later, inside the 1-second debounce) is dropped. -/
theorem handler_records_without_debounce_witness :
    (should_process ⟨[]⟩ ".py" "a.py" 0).1 = true
    ∧ should_process (should_process ⟨[]⟩ ".py" "a.py" 0).2 ".py" "a.py" 0 =
        (false, (should_process ⟨[]⟩ ".py" "a.py" 0).2) :=
  ⟨(handler_records_without_debounce.2 ⟨[]⟩ ".py" "a.py" 0 0 (by decide)
      rfl).1,
   (handler_records_without_debounce.2 ⟨[]⟩ ".py" "a.py" 0 0 (by decide)
      rfl).2.1 (by decide)⟩

/-- C8, counterexample.  `get_messages_for` accepts the unregistered
context name `"ghost"` without any error: it silently returns the
`"all"`-addressed message instead of rejecting the unknown name. -/
theorem unknown_context_counterexample :
    ("ghost" ∉ ALL_CONTEXTS)
    ∧ get_messages_for
        [⟨1, "oracle", "all", "a", "info", "normal", 0, none⟩] "ghost" true
      = [⟨1, "oracle", "all", "a", "info", "normal", 0, none⟩] := by
  exact ⟨by decide, by decide⟩

/-- C8, amended.  Only `send_message` validates context names: an
unregistered sender or target produces the explicit invalid-context
error with the log unchanged.  `get_messages_for` performs no
validation: for a name outside the registry (and different from
`"all"`), over a log whose recipients are all registered or `"all"`, it
silently returns the `"all"`-addressed messages. -/
theorem unknown_context_partial_rejection :
    (∀ (all : List String) (rules : HandoffRules) (log : List Message)
        (f t c ty pr : String) (now : Nat), (f ∉ all ∨ t ∉ all) →
        send_message all rules log f t c ty pr now =
          SendResult.invalidContext log)
    ∧ (∀ (log : List Message) (ctx : String) (u : Bool),
        (∀ m ∈ log, m.toCtx ∈ ALL_CONTEXTS ∨ m.toCtx = "all") →
        ctx ∉ ALL_CONTEXTS → ctx ≠ "all" →
        (get_messages_for log ctx u).Perm
          (log.filter (fun m => m.toCtx == "all" &&
            (!u || m.readAt.isNone)))) := by
  constructor
  · intro all rules log f t c ty pr now h
    unfold send_message
    rw [if_pos h]
  · intro log ctx u hlog hctx hall
    unfold get_messages_for
    have hfil : log.filter (inboxPred ctx u) =
        log.filter (fun m => m.toCtx == "all" && (!u || m.readAt.isNone)) := by
      apply List.filter_congr
      intro m hm
      unfold inboxPred
      have hne : (m.toCtx == ctx) = false := by
        apply beq_eq_false_iff_ne.mpr
        intro he
        rcases hlog m hm with h | h
        · exact hctx (he ▸ h)
        · exact hall (by rw [← he, h])
      rw [hne, Bool.false_or]
    rw [hfil]
    exact sortMessages_perm _

/-- C8, witness for the amended theorem: a send from the unregistered
context `"ghost"` is rejected with the invalid-context error and an
unchanged (empty) log. -/
theorem unknown_context_partial_rejection_witness :
    send_message ALL_CONTEXTS HANDOFF_RULES [] "ghost" "dev" "c" "info"
        "normal" 0 = SendResult.invalidContext [] :=
  unknown_context_partial_rejection.1 ALL_CONTEXTS HANDOFF_RULES [] "ghost"
    "dev" "c" "info" "normal" 0 (Or.inl (by decide))
